import Mathlib

/-!
Shallow embedding of the ExpenseAI rule engine and import pipeline.

The data model (categories, transactions, bank records, alerts, savings
ledger) and the operations below are translated from the repository source:
`parseCSV`, `bankRecordToExpense` (services/database.ts), the CSV upload
pipeline (`CSVUpload.tsx`), and the dashboard handlers `handleAddExpense`
and `handleDeleteExpense` (Index.tsx).  The classifier, cap enforcer and
savings-ledger reconciliation live in `services/ai.ts`, which is not part
of the available sources; those definitions are modelled from the
specification and are marked as such in their doc comments.

Monetary amounts are modelled as rationals.  Strings are processed at the
level of their character lists so that every definition is executable by
kernel reduction.
-/

deriving instance DecidableEq for Except

namespace ExpenseAI

/-- Fixed, closed set of 9 spending categories (lib/mockData.ts). -/
inductive Category where
  | food | transport | shopping | entertainment | bills
  | subscriptions | groceries | health | other
deriving DecidableEq, Repr

/-- Provenance tag of a transaction: typed by the user or imported from a bank statement. -/
inductive Source where
  | MANUAL | AUTO
deriving DecidableEq, Repr

/-- Bank statement record type column (services/database.ts `BankRecord`). -/
inductive BankType where
  | debit | credit
deriving DecidableEq, Repr

/-- Alert severity (lib/mockData.ts `HabitAlert`). -/
inductive Severity where
  | good | warning | bad
deriving DecidableEq, Repr

/-- Saving bucket type of a ledger entry (services/ai.ts contract, spec section 3). -/
inductive SavingType where
  | PREVENTED | REDUCED | OPTIMIZED
deriving DecidableEq, Repr

/-- Calendar date of an occurrence timestamp, at day granularity.  The code
stores JavaScript `Date` values; classification, cap enforcement and ledger
periods only ever inspect the year and month. -/
structure DateD where
  year : Nat
  month : Nat
  day : Nat
deriving DecidableEq, Repr

/-- A transaction (called `Expense` throughout the source).  The first
seven fields are exactly those the program constructs and that
`getExpenses` in services/database.ts reads back.  The `requested` field
is not one of them: it is the "pre-cap requested amount, if recorded"
slot over which the spec (section 4.4) defines the savings ledger's
REDUCED evidence — the input contract of the reconciliation modelled
below for the missing services/ai.ts.  No code path of this program ever
records such an amount, so every transaction the embedded operations
construct carries `none` here; this empty evidence channel is what makes
the REDUCED recording of the cap-enforcement claim unsatisfiable (see
the C1 theorem). -/
structure Expense where
  id : String
  description : String
  amount : Rat
  category : Category
  date : DateD
  isImpulse : Bool
  source : Source
  requested : Option Rat := none
deriving DecidableEq, Repr

/-- A behavioral alert (lib/mockData.ts `HabitAlert`). -/
structure HabitAlert where
  id : String
  title : String
  alertText : String
  suggestion : String
  category : Category
  severity : Severity
  savingPotential : Rat
deriving DecidableEq, Repr

/-- Impulse/habit flags computed by the classifier. -/
structure Flags where
  impulse : Bool
  habit : Bool
deriving DecidableEq, Repr

/-- Result shape of `classifyExpense`: call sites destructure `{ flags }`. -/
structure ClassifyResult where
  flags : Flags
deriving DecidableEq, Repr

/-- A decoded bank statement row (services/database.ts `BankRecord`).  The
date is kept as the original string, exactly as the source does. -/
structure BankRecord where
  date : String
  description : String
  amount : Rat
  type : BankType
deriving DecidableEq, Repr

/-- Derived savings aggregate shown to the user (services/ai.ts
`SavingsSummary`, initialised in Index.tsx line 43). -/
structure SavingsSummary where
  total : Rat
  prevented : Rat
  reduced : Rat
  optimized : Rat
deriving DecidableEq, Repr

/- ### Character-level string utilities

The source manipulates JavaScript strings with `split`, `trim` and
`toLowerCase`.  These are modelled over `List Char` so that all string
processing reduces in the kernel. -/

/-- Whitespace test used by the model of JavaScript `trim`. -/
def isWS (c : Char) : Bool :=
  c = ' ' || c = '\t' || c = '\n' || c = '\r'

/-- Model of JavaScript `String.prototype.trim` over a character list. -/
def trimCL (l : List Char) : List Char :=
  ((l.dropWhile isWS).reverse.dropWhile isWS).reverse

/-- Model of JavaScript `String.prototype.split(sep)` for a one-character
separator: `"a,b," ↦ ["a", "b", ""]` and `"" ↦ [""]`. -/
def splitOnChar (c : Char) : List Char → List (List Char)
  | [] => [[]]
  | x :: xs =>
    let r := splitOnChar c xs
    if x = c then [] :: r
    else
      match r with
      | [] => [[x]]
      | y :: ys => (x :: y) :: ys

/-- ASCII lower-casing of one character (model of `toLowerCase` on the
ASCII range, which is all the source ever compares). -/
def lowerChar (c : Char) : Char :=
  if 'A' ≤ c ∧ c ≤ 'Z' then Char.ofNat (c.toNat + 32) else c

/-- ASCII lower-casing of a character list. -/
def toLowerCL (l : List Char) : List Char :=
  l.map lowerChar

/-- ASCII lower-casing of a string. -/
def toLowerStr (s : String) : String :=
  ⟨toLowerCL s.data⟩

/-- Decimal digit test. -/
def isDigitCh (c : Char) : Bool :=
  '0' ≤ c && c ≤ '9'

/-- Numeric value of a decimal digit list, most significant first. -/
def digitsVal (l : List Char) : Nat :=
  l.foldl (fun acc c => 10 * acc + (c.toNat - 48)) 0

/-- Decimal digits of a natural number, via explicit fuel so that the
definition is structural and kernel-reducible. -/
def natDigitsAux : Nat → Nat → List Char
  | 0, _ => []
  | _ + 1, n =>
    if n < 10 then [Char.ofNat (n + 48)]
    else natDigitsAux n (n / 10) ++ [Char.ofNat (n % 10 + 48)]

/-- Decimal rendering of a natural number as a string. -/
def natStr (n : Nat) : String :=
  ⟨natDigitsAux (n + 1) n⟩

/-- Sign prefix of a JavaScript float literal: returns the sign and the
remaining characters. -/
def parseSign : List Char → Rat × List Char
  | [] => (1, [])
  | c :: rest =>
    if c = '-' then (-1, rest)
    else if c = '+' then (1, rest)
    else (1, c :: rest)

/-- Fractional digits after an optional decimal point. -/
def fracDigits : List Char → List Char
  | [] => []
  | c :: rest => if c = '.' then rest.takeWhile isDigitCh else []

/-- Model of JavaScript `parseFloat` restricted to plain decimal notation:
optional leading whitespace, an optional sign, then a longest prefix of
digits with at most one decimal point.  Returns `none` exactly when no
digit is consumed (the cases where `parseFloat` yields `NaN`).  Trailing
garbage after the numeric prefix is ignored, as `parseFloat` does. -/
def parseFloatQ (l : List Char) : Option Rat :=
  let l1 := l.dropWhile isWS
  let s := parseSign l1
  let ip := s.2.takeWhile isDigitCh
  let fp := fracDigits (s.2.dropWhile isDigitCh)
  if ip = [] ∧ fp = [] then none
  else some (s.1 * ((digitsVal ip : Rat) + (digitsVal fp : Rat) / (10 : Rat) ^ fp.length))

/-- Number of days in a calendar month, with the Gregorian leap rule. -/
def daysInMonth (y m : Nat) : Nat :=
  if m = 2 then
    if y % 4 = 0 ∧ (y % 100 ≠ 0 ∨ y % 400 = 0) then 29 else 28
  else if m = 4 ∨ m = 6 ∨ m = 9 ∨ m = 11 then 30
  else if 1 ≤ m ∧ m ≤ 12 then 31
  else 0

/-- Model of the host date parser (`new Date(s)` followed by the `isNaN`
validity check) on ISO `YYYY-MM-DD` date strings: three dash-separated
all-digit fields with an in-range month and day parse to a date, anything
else is invalid. -/
def parseDateD (l : List Char) : Option DateD :=
  match splitOnChar '-' l with
  | [y, m, d] =>
    if y ≠ [] ∧ m ≠ [] ∧ d ≠ [] ∧ y.all isDigitCh ∧ m.all isDigitCh ∧ d.all isDigitCh then
      let yv := digitsVal y
      let mv := digitsVal m
      let dv := digitsVal d
      if 1 ≤ mv ∧ mv ≤ 12 ∧ 1 ≤ dv ∧ dv ≤ daysInMonth yv mv then
        some ⟨yv, mv, dv⟩
      else none
    else none
  | _ => none

/- ### CSV decoder (services/database.ts `parseCSV`) -/

/-- Single-quote character, for reproducing the error message text of the
source without a quote character in a string literal. -/
def sq : String :=
  String.singleton (Char.ofNat 39)

/-- The non-blank lines of a CSV file: `csvContent.split(chr(10)).filter(line => line.trim())`. -/
def filteredLines (csv : String) : List (List Char) :=
  (splitOnChar '\n' csv.data).filter (fun l => !(trimCL l).isEmpty)

/-- Header cells, trimmed and lower-cased:
`lines[0].split(comma).map(h => h.trim().toLowerCase())`. -/
def mkHeaders (headerLine : List Char) : List (List Char) :=
  (splitOnChar ',' headerLine).map (fun h => toLowerCL (trimCL h))

/-- The four required CSV columns, in the order the source checks them. -/
def requiredHeaders : List (List Char) :=
  [("date").data, ("description").data, ("amount").data, ("type").data]

/-- First required column missing from the headers, if any. -/
def requiredMissing (headers : List (List Char)) : Option (List Char) :=
  requiredHeaders.find? (fun r => !(decide (r ∈ headers)))

/-- Field of the row object built by `headers.forEach((header, index) =>
record[header] = values[index])`: on duplicate headers the last assignment
wins, which is the first match in the reversed association list. -/
def recordField (headers values : List (List Char)) (key : List Char) : List Char :=
  match (headers.zip values).reverse.find? (fun p => decide (p.1 = key)) with
  | some p => p.2
  | none => []

/-- The ways a single data row can fail validation, carrying the offending
cell text that the source interpolates into the message. -/
inductive RowErr where
  | cols
  | badDate (cell : String)
  | badAmount (cell : String)
  | badType (cell : String)
deriving DecidableEq, Repr

/-- Error message of a failing row, for the row at index `i` of the
non-blank lines (the header is index 0), exactly as thrown by the source;
the message names the row as `i + 1`, its 1-based position among the
lines of the file. -/
def rowErrMsg : RowErr → Nat → String
  | RowErr.cols, i => ("Row ") ++ natStr (i + 1) ++ (" has incorrect number of columns")
  | RowErr.badDate cell, i => ("Invalid date format in row ") ++ natStr (i + 1) ++ (": ") ++ cell
  | RowErr.badAmount cell, i => ("Invalid amount in row ") ++ natStr (i + 1) ++ (": ") ++ cell
  | RowErr.badType cell, i =>
    ("Invalid type in row ") ++ natStr (i + 1) ++ (": ") ++ cell ++
      (". Must be ") ++ sq ++ ("debit") ++ sq ++ (" or ") ++ sq ++ ("credit") ++ sq

/-- Validation and decoding of one data row, following the source order:
column count, date, amount, then type.  On success the record stores the
original date string, the trimmed description, the absolute value of the
parsed amount, and the lower-cased type. -/
def parseRowE (headers : List (List Char)) (row : List Char) : Except RowErr BankRecord :=
  let values := (splitOnChar ',' row).map trimCL
  if values.length = headers.length then
    let dateCell := recordField headers values ("date").data
    let descCell := recordField headers values ("description").data
    let amountCell := recordField headers values ("amount").data
    let typeCell := recordField headers values ("type").data
    match parseDateD dateCell with
    | none => Except.error (RowErr.badDate ⟨dateCell⟩)
    | some _ =>
      match parseFloatQ amountCell with
      | none => Except.error (RowErr.badAmount ⟨amountCell⟩)
      | some q =>
        let t := toLowerCL typeCell
        if t = ("debit").data then
          Except.ok ⟨⟨dateCell⟩, ⟨descCell⟩, |q|, BankType.debit⟩
        else if t = ("credit").data then
          Except.ok ⟨⟨dateCell⟩, ⟨descCell⟩, |q|, BankType.credit⟩
        else Except.error (RowErr.badType ⟨typeCell⟩)
  else Except.error RowErr.cols

/-- The row loop of `parseCSV`: `i` is the index of the first row of
`rows` within the non-blank lines (the first data row has `i = 1`).  The
first invalid row aborts decoding with its message; no records survive. -/
def parseRows (headers : List (List Char)) (rows : List (List Char)) (i : Nat) :
    Except String (List BankRecord) :=
  match rows with
  | [] => Except.ok []
  | r :: rest =>
    match parseRowE headers r with
    | Except.error e => Except.error (rowErrMsg e i)
    | Except.ok rec =>
      match parseRows headers rest (i + 1) with
      | Except.error msg => Except.error msg
      | Except.ok recs => Except.ok (rec :: recs)

/-- The CSV decoder `parseCSV` of services/database.ts: keeps the non-blank
lines, requires a header plus at least one data row, requires the four
columns, then validates every data row; the first failure aborts the whole
decode with a row-specific message. -/
def parseCSV (csv : String) : Except String (List BankRecord) :=
  match filteredLines csv with
  | [] => Except.error ("CSV file must have at least a header row and one data row")
  | [_] => Except.error ("CSV file must have at least a header row and one data row")
  | headerLine :: rows =>
    let headers := mkHeaders headerLine
    match requiredMissing headers with
    | some r => Except.error (("CSV must contain column: ") ++ ⟨r⟩)
    | none => parseRows headers rows 1

/- ### Import conversion (services/database.ts `bankRecordToExpense`) -/

/-- Substring occurrence test over character lists, modelling JavaScript
`String.prototype.includes`. -/
def hasSub (needle hay : List Char) : Bool :=
  match hay with
  | [] => decide (needle = [])
  | _ :: rest => needle.isPrefixOf hay || hasSub needle rest

/-- Membership of any of several keywords in a description. -/
def hasAnySub (needles : List (List Char)) (hay : List Char) : Bool :=
  needles.any (fun n => hasSub n hay)

/-- Keyword-to-category inference of `bankRecordToExpense`: a deterministic
lookup over the lower-cased description, first matching rule wins,
unmatched descriptions fall back to `other`. -/
def inferCategory (descLower : List Char) : Category :=
  if hasAnySub [("food").data, ("restaurant").data, ("cafe").data, ("swiggy").data,
      ("zomato").data] descLower then Category.food
  else if hasAnySub [("uber").data, ("ola").data, ("taxi").data, ("bus").data,
      ("metro").data] descLower then Category.transport
  else if hasAnySub [("amazon").data, ("flipkart").data, ("myntra").data,
      ("shopping").data] descLower then Category.shopping
  else if hasAnySub [("netflix").data, ("prime").data, ("hotstar").data,
      ("movie").data] descLower then Category.entertainment
  else if hasAnySub [("electricity").data, ("water").data, ("gas").data,
      ("internet").data, ("phone").data] descLower then Category.bills
  else if hasAnySub [("subscription").data, ("spotify").data,
      ("apple music").data] descLower then Category.subscriptions
  else if hasAnySub [("grocery").data, ("supermarket").data,
      ("bigbasket").data] descLower then Category.groceries
  else if hasAnySub [("hospital").data, ("medical").data,
      ("pharmacy").data] descLower then Category.health
  else Category.other

/-- Conversion of a decoded bank record to a transaction
(`bankRecordToExpense`): keyword categorization over the lower-cased
description, the validated date re-parsed from its string, no impulse flag
yet, and provenance `AUTO`.  The id is empty until persistence assigns one. -/
def bankRecordToExpense (record : BankRecord) : Expense :=
  { id := ""
    description := record.description
    amount := record.amount
    category := inferCategory (toLowerCL record.description.data)
    date := (parseDateD record.date.data).getD ⟨1970, 1, 1⟩
    isImpulse := false
    source := Source.AUTO
    requested := none }

/- ### Classifier (services/ai.ts, not among the available sources) -/

/-- Ledger/alert period of a date: its calendar (year, month). -/
def periodOf (d : DateD) : Nat × Nat :=
  (d.year, d.month)

/-- Modelled from the spec: the static essential/non-essential table of the
Category Model; the impulse rule applies to the non-essential
"food/shopping/entertainment-class" categories (spec section 4.1). -/
def nonEssentialCategory : Category → Bool
  | Category.food => true
  | Category.shopping => true
  | Category.entertainment => true
  | _ => false

/-- Number of transactions of the candidate's category within the
candidate's calendar month, counting the candidate itself in addition to
the matching history entries. -/
def countInMonth (t : Expense) (history : List Expense) : Nat :=
  1 + (history.filter (fun e =>
    decide (e.category = t.category) && decide (periodOf e.date = periodOf t.date))).length

/-- Modelled from the spec: `classifyExpense` of the missing services/ai.ts.
Impulse: non-essential category and amount strictly above the fixed
threshold of 500.  Habit: the category has occurred 4 or more times within
the current calendar month, inclusive of the candidate (spec section 4.1). -/
def classifyExpense (t : Expense) (history : List Expense) : ClassifyResult :=
  { flags :=
    { impulse := nonEssentialCategory t.category && decide (500 < t.amount)
      habit := decide (4 ≤ 1 + (history.filter (fun e =>
        decide (e.category = t.category) && decide (periodOf e.date = periodOf t.date))).length) } }

/- ### Cap enforcer (services/ai.ts, not among the available sources) -/

/-- Month-to-date spend of a category: the sum of the amounts of the
transactions of that category dated in the current month, as computed
inline by `handleAddExpense` in Index.tsx. -/
def monthCategorySpend (expenses : List Expense) (category : Category) (now : DateD) : Rat :=
  ((expenses.filter (fun e =>
    decide (e.date.year = now.year) && decide (e.date.month = now.month) &&
      decide (e.category = category))).map (fun e => e.amount)).sum

/-- Modelled from the spec: `computeCategoryCap` of the missing
services/ai.ts.  Returns `none` when there is no active bad alert for the
category; otherwise the monthly ceiling `currentMonthSpend − savingPotential`,
floored at zero (spec section 4.3). -/
def computeCategoryCap (expenses : List Expense) (alerts : List HabitAlert)
    (category : Category) (now : DateD) : Option Rat :=
  match alerts.find? (fun a =>
      decide (a.severity = Severity.bad) && decide (a.category = category)) with
  | none => none
  | some a => some (max 0 (monthCategorySpend expenses category now - a.savingPotential))

/- ### Savings ledger (services/ai.ts, not among the available sources) -/

/-- Per-period saving buckets of a ledger record (spec section 6: a mapping
from period to prevented/reduced/optimized triples). -/
structure Buckets where
  prevented : Rat
  reduced : Rat
  optimized : Rat
deriving DecidableEq, Repr

/-- Empty buckets. -/
def Buckets.zero : Buckets :=
  ⟨0, 0, 0⟩

/-- Per-user ledger: an association list from period to buckets. -/
abbrev UserLedger : Type :=
  List ((Nat × Nat) × Buckets)

/-- Persisted ledger store: an association list from (lower-cased) user key
to that user's ledger. -/
abbrev LedgerState : Type :=
  List (String × UserLedger)

/-- Buckets stored for a period, zero when the period is absent. -/
def lookupBuckets (l : UserLedger) (p : Nat × Nat) : Buckets :=
  match l.find? (fun q => decide (q.1 = p)) with
  | some q => q.2
  | none => Buckets.zero

/-- Ledger of a user key, empty when the key is absent. -/
def lookupUser (st : LedgerState) (k : String) : UserLedger :=
  match st.find? (fun q => decide (q.1 = k)) with
  | some q => q.2
  | none => []

/-- Store a user's ledger, replacing the first existing entry for the key
or appending a new one. -/
def setUser (st : LedgerState) (k : String) (v : UserLedger) : LedgerState :=
  match st with
  | [] => [(k, v)]
  | q :: rest => if q.1 = k then (k, v) :: rest else q :: setUser rest k v

/-- Store the buckets of one period inside a user's ledger. -/
def setPeriod (l : UserLedger) (p : Nat × Nat) (b : Buckets) : UserLedger :=
  match l with
  | [] => [(p, b)]
  | q :: rest => if q.1 = p then (p, b) :: rest else q :: setPeriod rest p b

/-- Add an amount to the bucket of one saving type. -/
def addToBucket (b : Buckets) (ty : SavingType) (amt : Rat) : Buckets :=
  match ty with
  | SavingType.PREVENTED => { b with prevented := b.prevented + amt }
  | SavingType.REDUCED => { b with reduced := b.reduced + amt }
  | SavingType.OPTIMIZED => { b with optimized := b.optimized + amt }

/-- Modelled from the spec: recording a saving into the persisted ledger
under (userKey, period), with the user key treated case-insensitively
(spec sections 3, 4.3 and 6). -/
def recordSaving (st : LedgerState) (userKey : String) (p : Nat × Nat)
    (ty : SavingType) (amt : Rat) : LedgerState :=
  let key := toLowerStr userKey
  let old := lookupUser st key
  setUser st key (setPeriod old p (addToBucket (lookupBuckets old p) ty amt))

/-- Residual saving evidence carried by one transaction: the difference
between its originally-requested amount, if recorded, and its committed
amount, floored at zero (spec sections 3 and 4.4). -/
def residualOf (e : Expense) : Rat :=
  match e.requested with
  | none => 0
  | some r => max 0 (r - e.amount)

/-- Total residual (REDUCED) evidence of the current transaction set for
one period. -/
def reducedEvidence (txs : List Expense) (p : Nat × Nat) : Rat :=
  ((txs.filter (fun t => decide (periodOf t.date = p))).map residualOf).sum

/-- Period keys with duplicates removed (keeping the last occurrence). -/
def dedupKeys : List (Nat × Nat) → List (Nat × Nat)
  | [] => []
  | p :: ps => if p ∈ ps then dedupKeys ps else p :: dedupKeys ps

/-- Distinct periods occurring in a transaction set. -/
def txPeriods (txs : List Expense) : List (Nat × Nat) :=
  dedupKeys (txs.map (fun t => periodOf t.date))

/-- Periods of the rebuilt user ledger: the periods of the current
transaction set followed by the previously stored periods not among them. -/
def rebuildKeys (old : UserLedger) (txs : List Expense) : List (Nat × Nat) :=
  txPeriods txs ++ (old.map Prod.fst).filter (fun p => !decide (p ∈ txPeriods txs))

/-- Rebuilt buckets of one period: the REDUCED bucket is recomputed from
the current transaction set's evidence (never incremented), while the
PREVENTED and OPTIMIZED buckets — whose savings have no surviving
transaction — are carried over from the stored ledger. -/
def rebuildValue (old : UserLedger) (txs : List Expense) (p : Nat × Nat) : Buckets :=
  { prevented := (lookupBuckets old p).prevented
    reduced := reducedEvidence txs p
    optimized := (lookupBuckets old p).optimized }

/-- Rebuilt per-user ledger over the rebuilt period keys. -/
def rebuildLedger (old : UserLedger) (txs : List Expense) : UserLedger :=
  (rebuildKeys old txs).map (fun p => (p, rebuildValue old txs p))

/-- Summary of a user ledger: each field is the sum of its bucket over all
periods, and the total sums the three buckets of every period. -/
def summarize (l : UserLedger) : SavingsSummary :=
  { total := (l.map (fun q => q.2.prevented + q.2.reduced + q.2.optimized)).sum
    prevented := (l.map (fun q => q.2.prevented)).sum
    reduced := (l.map (fun q => q.2.reduced)).sum
    optimized := (l.map (fun q => q.2.optimized)).sum }

/-- Modelled from the spec: `reconcileSavingsLedger` of the missing
services/ai.ts.  Rebuilds the ledger of the (case-insensitively keyed)
user from the current transaction set's evidence and the stored
prevented/optimized buckets, persists the rebuilt ledger under the user
key, and returns the derived summary (spec section 4.4). -/
def reconcileSavingsLedger (userKey : String) (txs : List Expense) (st : LedgerState) :
    SavingsSummary × LedgerState :=
  let key := toLowerStr userKey
  let nl := rebuildLedger (lookupUser st key) txs
  (summarize nl, setUser st key nl)

/-- Modelled from the spec: `recordOptimizedSaving` of the missing
services/ai.ts — any other reduction path records an OPTIMIZED saving for
the current period. -/
def recordOptimizedSaving (st : LedgerState) (userKey : String) (now : DateD)
    (amt : Rat) : LedgerState :=
  recordSaving st userKey (periodOf now) SavingType.OPTIMIZED amt

/- ### Dashboard handlers (pages/Index.tsx) -/

/-- The manual expense persisted by `handleAddExpense`: classified against
the existing history, dated now, tagged MANUAL; `finalAmount` is the
committed (possibly cap-reduced) amount.  The source builds exactly the
fields below — in particular it stores no pre-cap amount, so the
ledger-evidence slot stays `none`. -/
def mkManualExpense (descr : String) (finalAmount : Rat) (category : Category)
    (now : DateD) (history : List Expense) : Expense :=
  let base : Expense :=
    { id := ""
      description := descr
      amount := finalAmount
      category := category
      date := now
      isImpulse := false
      source := Source.MANUAL
      requested := none }
  { base with isImpulse := (classifyExpense base history).flags.impulse }

/-- The `handleAddExpense` handler of Index.tsx, as its effect on the
persisted transaction list.  When the optimization toggle (`applySavings`)
is active and a cap exists for the category,
`remaining = max 0 (cap − monthTotal)`; a non-positive remainder blocks
the transaction entirely — the source shows a toast and returns, so
nothing is persisted; a smaller positive remainder persists the
transaction with its amount reduced to the remainder; otherwise it is
persisted unmodified.  The blocked amount and the blocked difference
`amount − remaining` reach only the notification text: the handler
performs no ledger write and the persisted expense carries no pre-cap
amount, so neither quantity is available to the subsequent
reconciliation. -/
def handleAddExpense (applySavings : Bool) (expenses : List Expense)
    (alerts : List HabitAlert) (descr : String) (amount : Rat) (category : Category)
    (now : DateD) : List Expense :=
  let badAlerts := alerts.filter (fun a => decide (a.severity = Severity.bad))
  if applySavings then
    match computeCategoryCap expenses badAlerts category now with
    | some cap =>
      let monthTotal := monthCategorySpend expenses category now
      let remaining := max 0 (cap - monthTotal)
      if remaining ≤ 0 then
        expenses
      else if remaining < amount then
        mkManualExpense descr remaining category now expenses :: expenses
      else
        mkManualExpense descr amount category now expenses :: expenses
    | none => mkManualExpense descr amount category now expenses :: expenses
  else mkManualExpense descr amount category now expenses :: expenses

/-- The `handleDeleteExpense` handler of Index.tsx: looks the target up by
id, refuses to proceed unless its provenance is MANUAL, and otherwise
removes every transaction with that id from the list. -/
def handleDeleteExpense (expenses : List Expense) (targetId : String) : List Expense :=
  match expenses.find? (fun e => decide (e.id = targetId)) with
  | none => expenses
  | some target =>
    if target.source = Source.MANUAL then
      expenses.filter (fun e => !decide (e.id = targetId))
    else expenses

/- ### CSV upload pipeline (components/CSVUpload.tsx `handleFileSelect`) -/

/-- One imported expense: the bank record converted by
`bankRecordToExpense` and classified against the pre-import history. -/
def importExpense (existing : List Expense) (record : BankRecord) : Expense :=
  let base := bankRecordToExpense record
  { base with isImpulse := (classifyExpense base existing).flags.impulse }

/-- The decoding half of `handleFileSelect` in CSVUpload.tsx: decode the
file, reject an empty decode, keep only the debit records (credits are
discarded before classification), reject an import with no debits, and
convert the surviving records to classified AUTO transactions. -/
def handleFileSelect (csv : String) (existing : List Expense) : Except String (List Expense) :=
  match parseCSV csv with
  | Except.error msg => Except.error msg
  | Except.ok records =>
    if records.isEmpty then Except.error ("No valid records found in CSV")
    else
      let debitRecords := records.filter (fun r => decide (r.type = BankType.debit))
      if debitRecords.isEmpty then Except.error ("No debit transactions found in CSV")
      else Except.ok (debitRecords.map (importExpense existing))

/- ### Supporting lemmas -/

/-- Filtering twice with the same predicate filters once. -/
theorem filter_idem {α : Type} (p : α → Bool) (l : List α) :
    (l.filter p).filter p = l.filter p := by
  induction l with
  | nil => rfl
  | cons x xs ih =>
    by_cases h : p x = true
    · simp [List.filter_cons, h, ih]
    · simp [List.filter_cons, h, ih]

/- ### C2: impulse classification boundary -/

/-- C2.  For a transaction of a non-essential category, the classifier sets
the impulse flag exactly above the fixed threshold: an amount strictly
greater than 500 is flagged, an amount of exactly 500 is not (the boundary
is exclusive). -/
theorem classify_impulse_boundary (t : Expense) (history : List Expense)
    (hcat : nonEssentialCategory t.category = true) :
    (500 < t.amount → (classifyExpense t history).flags.impulse = true) ∧
      (t.amount = 500 → (classifyExpense t history).flags.impulse = false) := by
  constructor
  · intro h
    simp [classifyExpense, hcat, h]
  · intro h
    simp [classifyExpense, hcat, h]

/-- C2 witness: a shopping transaction of 501 is an impulse and one of
exactly 500 is not. -/
theorem classify_impulse_boundary_witness :
    (classifyExpense ⟨"", "bag", 501, Category.shopping, ⟨2024, 1, 5⟩, false,
        Source.MANUAL, none⟩ []).flags.impulse = true ∧
      (classifyExpense ⟨"", "bag", 500, Category.shopping, ⟨2024, 1, 5⟩, false,
        Source.MANUAL, none⟩ []).flags.impulse = false :=
  ⟨(classify_impulse_boundary ⟨"", "bag", 501, Category.shopping, ⟨2024, 1, 5⟩, false,
        Source.MANUAL, none⟩ [] (by decide)).1 (by norm_num),
    (classify_impulse_boundary ⟨"", "bag", 500, Category.shopping, ⟨2024, 1, 5⟩, false,
        Source.MANUAL, none⟩ [] (by decide)).2 rfl⟩

/- ### C3: habit threshold -/

/-- C3.  The classifier sets the habit flag exactly when the candidate's
category has occurred 4 or more times within the candidate's calendar
month, counting the candidate itself: with 3 occurrences in the month the
flag is off, the 4th occurrence switches it on. -/
theorem classify_habit_iff (t : Expense) (history : List Expense) :
    (classifyExpense t history).flags.habit = true ↔ 4 ≤ countInMonth t history := by
  simp [classifyExpense, countInMonth]

/- ### C8: only MANUAL transactions are deletable -/

/-- C8.  Under unique transaction ids, a user delete action never changes
the AUTO subset of the transaction set, and when the targeted transaction
is an AUTO one the deletion does not proceed at all: the whole set is
unchanged. -/
theorem delete_preserves_auto (expenses : List Expense) (targetId : String)
    (hids : (expenses.map (fun e => e.id)).Nodup) :
    (handleDeleteExpense expenses targetId).filter (fun e => decide (e.source = Source.AUTO))
        = expenses.filter (fun e => decide (e.source = Source.AUTO)) ∧
      (∀ t, expenses.find? (fun e => decide (e.id = targetId)) = some t →
        t.source = Source.AUTO → handleDeleteExpense expenses targetId = expenses) := by
  constructor
  · unfold handleDeleteExpense
    cases hfind : expenses.find? (fun e => decide (e.id = targetId)) with
    | none => rfl
    | some target =>
      by_cases hsrc : target.source = Source.MANUAL
      · have htid : target.id = targetId := by
          have := List.find?_some hfind
          simpa using this
        have htmem : target ∈ expenses := List.mem_of_find?_eq_some hfind
        simp only [hsrc, if_pos]
        rw [List.filter_filter]
        refine List.filter_congr ?_
        intro e he
        by_cases hauto : e.source = Source.AUTO
        · have hne : ¬ e.id = targetId := by
            intro hid
            have : e = target :=
              List.inj_on_of_nodup_map hids he htmem (by rw [hid, htid])
            rw [this, hsrc] at hauto
            cases hauto
          simp [hauto, hne]
        · simp [hauto]
      · simp [hsrc]
  · intro t hfind hauto
    unfold handleDeleteExpense
    rw [hfind]
    have : ¬ t.source = Source.MANUAL := by
      rw [hauto]
      intro h
      cases h
    simp [this]

/-- C8 witness: deleting the MANUAL transaction leaves the AUTO subset
untouched, and targeting the AUTO transaction is refused. -/
theorem delete_preserves_auto_witness :
    (handleDeleteExpense
        [⟨"1", "import", 10, Category.other, ⟨2024, 1, 2⟩, false, Source.AUTO, none⟩,
         ⟨"2", "tea", 5, Category.food, ⟨2024, 1, 3⟩, false, Source.MANUAL, none⟩]
        "2").filter (fun e => decide (e.source = Source.AUTO))
        = ([⟨"1", "import", 10, Category.other, ⟨2024, 1, 2⟩, false, Source.AUTO, none⟩,
            ⟨"2", "tea", 5, Category.food, ⟨2024, 1, 3⟩, false, Source.MANUAL, none⟩]
            : List Expense).filter (fun e => decide (e.source = Source.AUTO)) :=
  (delete_preserves_auto
      [⟨"1", "import", 10, Category.other, ⟨2024, 1, 2⟩, false, Source.AUTO, none⟩,
       ⟨"2", "tea", 5, Category.food, ⟨2024, 1, 3⟩, false, Source.MANUAL, none⟩]
      "2" (by decide)).1

/- ### C9: an all-credit file is an error, not an empty import -/

/-- C9.  A CSV file that decodes successfully but contains only credit
records makes the upload pipeline fail with the "No debit transactions
found in CSV" error; no transactions are created. -/
theorem allcredit_rejected (csv : String) (existing : List Expense) (rs : List BankRecord)
    (hok : parseCSV csv = Except.ok rs) (hne : rs ≠ [])
    (hall : ∀ r ∈ rs, r.type = BankType.credit) :
    handleFileSelect csv existing = Except.error ("No debit transactions found in CSV") := by
  unfold handleFileSelect
  rw [hok]
  have hempty : rs.isEmpty = false := by
    cases h0 : rs
    · exact absurd h0 hne
    · simp
  have hfilter : rs.filter (fun r => decide (r.type = BankType.debit)) = [] := by
    refine List.filter_eq_nil_iff.mpr ?_
    intro r hr
    simp [hall r hr]
  simp [hempty, hfilter]

/-- C9 witness: a two-row all-credit statement is rejected with the
specific error. -/
theorem allcredit_rejected_witness :
    handleFileSelect
        ("date,description,amount,type\n2024-01-05,salary,100,credit\n2024-01-06,refund,50,credit")
        [] = Except.error ("No debit transactions found in CSV") :=
  allcredit_rejected
    ("date,description,amount,type\n2024-01-05,salary,100,credit\n2024-01-06,refund,50,credit")
    [] [⟨"2024-01-05", "salary", 100, BankType.credit⟩,
        ⟨"2024-01-06", "refund", 50, BankType.credit⟩]
    (by with_unfolding_all decide) (by decide) (by decide)

/- ### C7: one credit row and one debit row import exactly the debit -/

/-- C7.  When a CSV file decodes to exactly two records, one credit and
one debit — in either order — the upload pipeline produces exactly one
transaction, built from the debit record, and that transaction carries
provenance AUTO.  The credit record is discarded by the debit filter
before any conversion or classification happens. -/
theorem import_credit_debit (csv : String) (existing : List Expense) (r s : BankRecord)
    (hok : parseCSV csv = Except.ok [r, s]) :
    (r.type = BankType.credit → s.type = BankType.debit →
      handleFileSelect csv existing = Except.ok [importExpense existing s] ∧
        (importExpense existing s).source = Source.AUTO) ∧
    (r.type = BankType.debit → s.type = BankType.credit →
      handleFileSelect csv existing = Except.ok [importExpense existing r] ∧
        (importExpense existing r).source = Source.AUTO) := by
  constructor
  · intro hr hs
    constructor
    · unfold handleFileSelect
      rw [hok]
      simp [List.filter_cons, hr, hs]
    · rfl
  · intro hr hs
    constructor
    · unfold handleFileSelect
      rw [hok]
      simp [List.filter_cons, hr, hs]
    · rfl

/-- C7 witness, exercising both row orders: a credit-then-debit file and a
debit-then-credit file each import as the single debit-derived AUTO
transaction. -/
theorem import_credit_debit_witness :
    (handleFileSelect
        ("date,description,amount,type\n2024-01-05,salary,100,credit\n2024-01-06,swiggy order,200,debit")
        [] = Except.ok [importExpense [] ⟨"2024-01-06", "swiggy order", 200, BankType.debit⟩] ∧
      (importExpense [] ⟨"2024-01-06", "swiggy order", 200, BankType.debit⟩).source
        = Source.AUTO) ∧
    (handleFileSelect
        ("date,description,amount,type\n2024-01-05,swiggy order,200,debit\n2024-01-06,salary,100,credit")
        [] = Except.ok [importExpense [] ⟨"2024-01-05", "swiggy order", 200, BankType.debit⟩] ∧
      (importExpense [] ⟨"2024-01-05", "swiggy order", 200, BankType.debit⟩).source
        = Source.AUTO) :=
  ⟨(import_credit_debit
      ("date,description,amount,type\n2024-01-05,salary,100,credit\n2024-01-06,swiggy order,200,debit")
      [] ⟨"2024-01-05", "salary", 100, BankType.credit⟩
      ⟨"2024-01-06", "swiggy order", 200, BankType.debit⟩
      (by with_unfolding_all decide)).1 rfl rfl,
    (import_credit_debit
      ("date,description,amount,type\n2024-01-05,swiggy order,200,debit\n2024-01-06,salary,100,credit")
      [] ⟨"2024-01-05", "swiggy order", 200, BankType.debit⟩
      ⟨"2024-01-06", "salary", 100, BankType.credit⟩
      (by with_unfolding_all decide)).2 rfl rfl⟩

/- ### C10: negative CSV amounts are folded to their absolute value -/

/-- C10.  A data row whose amount cell parses to a negative number is not
rejected: row decoding succeeds and the stored record's amount is the
absolute value of the parsed number. -/
theorem negative_amount_folded (headers : List (List Char)) (row : List Char) (q : Rat)
    (d : DateD)
    (hlen : ((splitOnChar ',' row).map trimCL).length = headers.length)
    (hdate : parseDateD
        (recordField headers ((splitOnChar ',' row).map trimCL) (("date").data)) = some d)
    (hamt : parseFloatQ
        (recordField headers ((splitOnChar ',' row).map trimCL) (("amount").data)) = some q)
    (hneg : q < 0)
    (htype : toLowerCL
          (recordField headers ((splitOnChar ',' row).map trimCL) (("type").data))
            = ("debit").data ∨
        toLowerCL
          (recordField headers ((splitOnChar ',' row).map trimCL) (("type").data))
            = ("credit").data) :
    ∃ rec, parseRowE headers row = Except.ok rec ∧ rec.amount = |q| ∧ rec.amount = -q := by
  have habs : |q| = -q := abs_of_neg hneg
  have main : ∃ rec, parseRowE headers row = Except.ok rec ∧ rec.amount = |q| := by
    cases htype with
    | inl hdeb =>
      simp [parseRowE, hlen, hdate, hamt, hdeb]
    | inr hcred =>
      by_cases hdeb : toLowerCL
          (recordField headers ((splitOnChar ',' row).map trimCL) (("type").data))
            = ("debit").data
      · simp [parseRowE, hlen, hdate, hamt, hdeb]
      · simp [parseRowE, hlen, hdate, hamt, hdeb, hcred]
  obtain ⟨rec, hrec, hamount⟩ := main
  exact ⟨rec, hrec, hamount, by rw [hamount, habs]⟩

/-- C10 witness: an amount cell of -42.5 decodes to a record whose amount
is 42.5. -/
theorem negative_amount_folded_witness :
    ∃ rec, parseRowE (mkHeaders (("date,description,amount,type").data))
        (("2024-01-05,refund,-42.5,debit").data) = Except.ok rec ∧
      rec.amount = |(-85 : Rat)/2| ∧ rec.amount = -((-85 : Rat)/2) :=
  negative_amount_folded (mkHeaders (("date,description,amount,type").data))
    (("2024-01-05,refund,-42.5,debit").data) ((-85 : Rat)/2) ⟨2024, 1, 5⟩
    (by decide) (by decide) (by with_unfolding_all decide)
    (by norm_num) (Or.inl (by decide))

/- ### C6: an invalid row aborts the whole decode with its line number -/

/-- A prefix of valid rows is traversed without effect on a later failure:
the first invalid row after `good` valid rows reports its own position. -/
theorem parseRows_error_at (headers : List (List Char)) (good : List (List Char))
    (row : List Char) (rest : List (List Char)) (e : RowErr) (i : Nat)
    (hgood : ∀ r ∈ good, (parseRowE headers r).isOk = true)
    (hrow : parseRowE headers row = Except.error e) :
    parseRows headers (good ++ row :: rest) i = Except.error (rowErrMsg e (i + good.length)) := by
  induction good generalizing i with
  | nil =>
    simp [parseRows, hrow]
  | cons g gs ih =>
    have hg : (parseRowE headers g).isOk = true := hgood g (List.mem_cons_self g gs)
    obtain ⟨rec, hrec⟩ : ∃ rec, parseRowE headers g = Except.ok rec := by
      cases hcase : parseRowE headers g with
      | error err => rw [hcase] at hg; cases hg
      | ok rec => exact ⟨rec, rfl⟩
    have hrest : ∀ r ∈ gs, (parseRowE headers r).isOk = true := fun r hr =>
      hgood r (List.mem_cons_of_mem g hr)
    have hstep := ih (i + 1) hrest
    rw [List.cons_append]
    simp only [parseRows, hrec]
    rw [hstep]
    have harith : i + 1 + gs.length = i + (gs.length + 1) := by omega
    simp only [List.length_cons]
    rw [harith]

/-- Shape of the decoder when the header checks pass: decoding is the row
loop started at index 1. -/
theorem parseCSV_eq_parseRows (csv : String) (hline r2 : List Char)
    (rs2 : List (List Char)) (hsplit : filteredLines csv = hline :: r2 :: rs2)
    (hreq : requiredMissing (mkHeaders hline) = none) :
    parseCSV csv = parseRows (mkHeaders hline) (r2 :: rs2) 1 := by
  unfold parseCSV
  rw [hsplit]
  dsimp only
  rw [hreq]

/-- C6.  If the non-blank lines of a CSV file are a valid header followed
by some rows whose prefix up to an invalid row validates, then decoding
fails with exactly the message of that row's defect — a message that names
the row by its 1-based position among the lines of the file
(`good.length + 2`, the header being line 1) — and the decode yields no
records at all.  The defect `e` ranges over the four row-validation
failures: wrong column count, unparseable date, non-numeric amount, and a
type other than debit/credit. -/
theorem csv_invalid_row_aborts (csv : String) (hline : List Char)
    (good : List (List Char)) (row : List Char) (rest : List (List Char)) (e : RowErr)
    (hsplit : filteredLines csv = hline :: (good ++ row :: rest))
    (hreq : requiredMissing (mkHeaders hline) = none)
    (hgood : ∀ r ∈ good, (parseRowE (mkHeaders hline) r).isOk = true)
    (hrow : parseRowE (mkHeaders hline) row = Except.error e) :
    parseCSV csv = Except.error (rowErrMsg e (good.length + 1)) ∧
      parseCSV csv ≠ Except.ok [] ∧ ∀ rec recs, parseCSV csv ≠ Except.ok (rec :: recs) := by
  have hmain : parseCSV csv = Except.error (rowErrMsg e (good.length + 1)) := by
    obtain ⟨r2, rs2, hcons⟩ : ∃ r2 rs2, good ++ row :: rest = r2 :: rs2 := by
      cases good with
      | nil => exact ⟨row, rest, rfl⟩
      | cons g gs => exact ⟨g, gs ++ row :: rest, rfl⟩
    rw [hcons] at hsplit
    rw [parseCSV_eq_parseRows csv hline r2 rs2 hsplit hreq, ← hcons]
    rw [parseRows_error_at (mkHeaders hline) good row rest e 1 hgood hrow]
    rw [Nat.add_comm 1 good.length]
  refine ⟨hmain, ?_, ?_⟩
  · rw [hmain]
    intro h
    cases h
  · intro rec recs h
    rw [hmain] at h
    cases h

/-- C6 witness: a file whose second line has the non-numeric amount cell
`abc` fails decoding with the message naming line 2, and decodes to
neither the empty record list nor any non-empty one. -/
theorem csv_invalid_row_aborts_witness :
    parseCSV ("date,description,amount,type\n2024-01-05,coffee,abc,debit") =
      Except.error ("Invalid amount in row 2: abc") ∧
      parseCSV ("date,description,amount,type\n2024-01-05,coffee,abc,debit") ≠
        Except.ok [] := by
  have h := csv_invalid_row_aborts
    ("date,description,amount,type\n2024-01-05,coffee,abc,debit")
    (("date,description,amount,type").data) []
    (("2024-01-05,coffee,abc,debit").data) [] (RowErr.badAmount ("abc"))
    (by decide) (by decide) (by decide) (by with_unfolding_all decide)
  refine ⟨?_, h.2.1⟩
  rw [h.1]
  with_unfolding_all decide

/- ### Ledger lemmas -/

/-- Looking a key up right after storing it returns the stored value. -/
theorem find?_setUser (st : LedgerState) (k : String) (v : UserLedger) :
    (setUser st k v).find? (fun q => decide (q.1 = k)) = some (k, v) := by
  induction st with
  | nil => simp [setUser]
  | cons q rest ih =>
    by_cases h : q.1 = k
    · simp [setUser, h]
    · simp [setUser, h, ih]

/-- `lookupUser` of a freshly stored ledger. -/
theorem lookupUser_setUser (st : LedgerState) (k : String) (v : UserLedger) :
    lookupUser (setUser st k v) k = v := by
  unfold lookupUser
  rw [find?_setUser]

/-- Storing under the same key twice keeps only the second value. -/
theorem setUser_setUser (st : LedgerState) (k : String) (v w : UserLedger) :
    setUser (setUser st k v) k w = setUser st k w := by
  induction st with
  | nil => simp [setUser]
  | cons q rest ih =>
    by_cases h : q.1 = k
    · simp [setUser, h]
    · simp [setUser, h, ih]

/-- Deduplication does not change membership. -/
theorem mem_dedupKeys (x : Nat × Nat) (L : List (Nat × Nat)) :
    x ∈ dedupKeys L ↔ x ∈ L := by
  induction L with
  | nil => simp [dedupKeys]
  | cons p ps ih =>
    by_cases h : p ∈ ps
    · rw [List.mem_cons]
      simp only [dedupKeys, if_pos h]
      rw [ih]
      constructor
      · intro hx
        exact Or.inr hx
      · intro hx
        rcases hx with heq | hmem
        · rw [heq]
          exact h
        · exact hmem
    · simp only [dedupKeys, if_neg h]
      rw [List.mem_cons, List.mem_cons, ih]

/-- Filtering away the members of `T` from a sublist of `T` leaves nothing. -/
theorem filter_not_mem_nil (T L : List (Nat × Nat)) (hsub : ∀ x ∈ L, x ∈ T) :
    L.filter (fun p => !decide (p ∈ T)) = [] := by
  refine List.filter_eq_nil_iff.mpr ?_
  intro a ha
  simp [hsub a ha]

/-- First components of a key-indexed map construction. -/
theorem map_fst_pair {α β : Type} (f : α → β) (ks : List α) :
    (ks.map (fun p => (p, f p))).map Prod.fst = ks := by
  induction ks with
  | nil => rfl
  | cons k ks ih => simp [ih]

/-- Looking up a key of a key-indexed map construction returns its image. -/
theorem lookupBuckets_map_pair (f : (Nat × Nat) → Buckets) (ks : List (Nat × Nat))
    (p : Nat × Nat) (hp : p ∈ ks) :
    lookupBuckets (ks.map (fun q => (q, f q))) p = f p := by
  induction ks with
  | nil => cases hp
  | cons k ks ih =>
    by_cases h : k = p
    · subst h
      simp [lookupBuckets]
    · have hp' : p ∈ ks := by
        rcases List.mem_cons.mp hp with heq | hm
        · exact absurd heq.symm h
        · exact hm
      unfold lookupBuckets at ih ⊢
      simp only [List.map_cons, List.find?_cons]
      have : (decide ((k, f k).1 = p)) = false := by simp [h]
      rw [this]
      exact ih hp'

/-- The rebuilt ledger is keyed exactly by the rebuilt period keys. -/
theorem rebuildLedger_fst (old : UserLedger) (txs : List Expense) :
    (rebuildLedger old txs).map Prod.fst = rebuildKeys old txs := by
  unfold rebuildLedger
  exact map_fst_pair _ _

/-- Rebuilding the period keys over an already rebuilt ledger changes
nothing. -/
theorem rebuildKeys_stable (old : UserLedger) (txs : List Expense) :
    rebuildKeys (rebuildLedger old txs) txs = rebuildKeys old txs := by
  have hexp : rebuildKeys old txs
      = txPeriods txs ++ (old.map Prod.fst).filter (fun p => !decide (p ∈ txPeriods txs)) := rfl
  show txPeriods txs ++ ((rebuildLedger old txs).map Prod.fst).filter
      (fun p => !decide (p ∈ txPeriods txs)) = rebuildKeys old txs
  rw [rebuildLedger_fst, hexp, List.filter_append,
    filter_not_mem_nil (txPeriods txs) (txPeriods txs) (fun x hx => hx),
    filter_idem, List.nil_append]

/-- Rebuilding the buckets of a period over an already rebuilt ledger
changes nothing: the carried-over PREVENTED and OPTIMIZED buckets are read
back unchanged and the REDUCED bucket is recomputed from the same
transactions. -/
theorem rebuildValue_stable (old : UserLedger) (txs : List Expense) (p : Nat × Nat)
    (hp : p ∈ rebuildKeys old txs) :
    rebuildValue (rebuildLedger old txs) txs p = rebuildValue old txs p := by
  have hlook : lookupBuckets (rebuildLedger old txs) p = rebuildValue old txs p := by
    unfold rebuildLedger
    exact lookupBuckets_map_pair _ _ p hp
  show ({ prevented := (lookupBuckets (rebuildLedger old txs) p).prevented,
          reduced := reducedEvidence txs p,
          optimized := (lookupBuckets (rebuildLedger old txs) p).optimized } : Buckets)
      = rebuildValue old txs p
  rw [hlook]
  rfl

/-- Rebuilding an already rebuilt ledger from the same transactions gives
the same ledger. -/
theorem rebuildLedger_stable (old : UserLedger) (txs : List Expense) :
    rebuildLedger (rebuildLedger old txs) txs = rebuildLedger old txs := by
  show (rebuildKeys (rebuildLedger old txs) txs).map
      (fun p => (p, rebuildValue (rebuildLedger old txs) txs p)) = rebuildLedger old txs
  rw [rebuildKeys_stable]
  have : rebuildLedger old txs
      = (rebuildKeys old txs).map (fun p => (p, rebuildValue old txs p)) := rfl
  conv_rhs => rw [this]
  refine List.map_congr_left ?_
  intro p hp
  rw [rebuildValue_stable old txs p hp]

/- ### C4: reconciliation is idempotent -/

/-- C4.  Reconciling twice in a row with the same user key and the same
transaction set — the second call running on the ledger state left by the
first — returns the identical summary and the identical persisted state:
no saving amount is accumulated a second time. -/
theorem reconcile_idempotent (userKey : String) (txs : List Expense) (st : LedgerState) :
    reconcileSavingsLedger userKey txs (reconcileSavingsLedger userKey txs st).2
      = reconcileSavingsLedger userKey txs st := by
  unfold reconcileSavingsLedger
  dsimp only
  rw [lookupUser_setUser, rebuildLedger_stable, setUser_setUser]

/- ### C5: the summary satisfies total = prevented + reduced + optimized -/

/-- Well-formed ledger store: every stored PREVENTED and OPTIMIZED bucket
is non-negative.  This holds of the empty store and is preserved by
`recordSaving` with a non-negative amount and by reconciliation, so it is
an invariant of every reachable ledger state. -/
def WFLedger (st : LedgerState) : Prop :=
  ∀ u ∈ st, ∀ pb ∈ u.2, 0 ≤ pb.2.prevented ∧ 0 ≤ pb.2.optimized

/-- Splitting the per-period total sum into the three bucket sums. -/
theorem summarize_total_eq (l : UserLedger) :
    (summarize l).total = (summarize l).prevented + (summarize l).reduced +
      (summarize l).optimized := by
  unfold summarize
  induction l with
  | nil => simp
  | cons x xs ih =>
    simp only [List.map_cons, List.sum_cons] at ih ⊢
    rw [ih]
    ring

/-- The residual evidence of a single transaction is never negative. -/
theorem residualOf_nonneg (e : Expense) : 0 ≤ residualOf e := by
  unfold residualOf
  cases e.requested with
  | none => exact le_refl 0
  | some r => exact le_max_left 0 (r - e.amount)

/-- Recomputed reduced evidence is never negative. -/
theorem reducedEvidence_nonneg (txs : List Expense) (p : Nat × Nat) :
    0 ≤ reducedEvidence txs p := by
  refine List.sum_nonneg ?_
  intro x hx
  obtain ⟨t, _, rfl⟩ := List.mem_map.mp hx
  exact residualOf_nonneg t

/-- In a well-formed store, every looked-up PREVENTED and OPTIMIZED bucket
is non-negative, with absent keys reading as zero. -/
theorem lookup_nonneg_of_WF (st : LedgerState) (hwf : WFLedger st) (k : String)
    (p : Nat × Nat) :
    0 ≤ (lookupBuckets (lookupUser st k) p).prevented ∧
      0 ≤ (lookupBuckets (lookupUser st k) p).optimized := by
  unfold lookupUser
  cases hu : st.find? (fun q => decide (q.1 = k)) with
  | none => exact ⟨le_refl 0, le_refl 0⟩
  | some u =>
    have humem : u ∈ st := List.mem_of_find?_eq_some hu
    unfold lookupBuckets
    cases hb : u.2.find? (fun q => decide (q.1 = p)) with
    | none => exact ⟨le_refl 0, le_refl 0⟩
    | some pb =>
      have hpbmem : pb ∈ u.2 := List.mem_of_find?_eq_some hb
      exact hwf u humem pb hpbmem

/-- C5.  Every summary produced by reconciliation over a well-formed
ledger store satisfies the aggregate invariant: the total is exactly the
sum of the PREVENTED, REDUCED and OPTIMIZED buckets, and all four fields
are non-negative. -/
theorem summary_invariant (userKey : String) (txs : List Expense) (st : LedgerState)
    (hwf : WFLedger st) :
    ((reconcileSavingsLedger userKey txs st).1).total
        = ((reconcileSavingsLedger userKey txs st).1).prevented
          + ((reconcileSavingsLedger userKey txs st).1).reduced
          + ((reconcileSavingsLedger userKey txs st).1).optimized ∧
      0 ≤ ((reconcileSavingsLedger userKey txs st).1).total ∧
      0 ≤ ((reconcileSavingsLedger userKey txs st).1).prevented ∧
      0 ≤ ((reconcileSavingsLedger userKey txs st).1).reduced ∧
      0 ≤ ((reconcileSavingsLedger userKey txs st).1).optimized := by
  have hfst : (reconcileSavingsLedger userKey txs st).1
      = summarize (rebuildLedger (lookupUser st (toLowerStr userKey)) txs) := rfl
  rw [hfst]
  have hstruct : rebuildLedger (lookupUser st (toLowerStr userKey)) txs
      = (rebuildKeys (lookupUser st (toLowerStr userKey)) txs).map
          (fun p => (p, rebuildValue (lookupUser st (toLowerStr userKey)) txs p)) := rfl
  have hprev : 0 ≤ (summarize (rebuildLedger (lookupUser st (toLowerStr userKey)) txs)).prevented := by
    refine List.sum_nonneg ?_
    intro x hx
    obtain ⟨q, hq, rfl⟩ := List.mem_map.mp hx
    rw [hstruct] at hq
    obtain ⟨p, _, rfl⟩ := List.mem_map.mp hq
    exact (lookup_nonneg_of_WF st hwf (toLowerStr userKey) p).1
  have hred : 0 ≤ (summarize (rebuildLedger (lookupUser st (toLowerStr userKey)) txs)).reduced := by
    refine List.sum_nonneg ?_
    intro x hx
    obtain ⟨q, hq, rfl⟩ := List.mem_map.mp hx
    rw [hstruct] at hq
    obtain ⟨p, _, rfl⟩ := List.mem_map.mp hq
    exact reducedEvidence_nonneg txs p
  have hopt : 0 ≤ (summarize (rebuildLedger (lookupUser st (toLowerStr userKey)) txs)).optimized := by
    refine List.sum_nonneg ?_
    intro x hx
    obtain ⟨q, hq, rfl⟩ := List.mem_map.mp hx
    rw [hstruct] at hq
    obtain ⟨p, _, rfl⟩ := List.mem_map.mp hq
    exact (lookup_nonneg_of_WF st hwf (toLowerStr userKey) p).2
  have htot := summarize_total_eq (rebuildLedger (lookupUser st (toLowerStr userKey)) txs)
  refine ⟨htot, ?_, hprev, hred, hopt⟩
  rw [htot]
  exact add_nonneg (add_nonneg hprev hred) hopt

/-- C5 witness: reconciling the guest key over the empty store and an
empty transaction set yields a summary satisfying the invariant. -/
theorem summary_invariant_witness :
    ((reconcileSavingsLedger ("guest") [] []).1).total
        = ((reconcileSavingsLedger ("guest") [] []).1).prevented
          + ((reconcileSavingsLedger ("guest") [] []).1).reduced
          + ((reconcileSavingsLedger ("guest") [] []).1).optimized ∧
      0 ≤ ((reconcileSavingsLedger ("guest") [] []).1).total ∧
      0 ≤ ((reconcileSavingsLedger ("guest") [] []).1).prevented ∧
      0 ≤ ((reconcileSavingsLedger ("guest") [] []).1).reduced ∧
      0 ≤ ((reconcileSavingsLedger ("guest") [] []).1).optimized :=
  summary_invariant ("guest") [] [] (by intro u hu; cases hu)

/- ### C1: cap enforcement on manual adds -/

/-- Looking a period up right after storing it returns the stored buckets. -/
theorem find?_setPeriod (l : UserLedger) (p : Nat × Nat) (b : Buckets) :
    (setPeriod l p b).find? (fun q => decide (q.1 = p)) = some (p, b) := by
  induction l with
  | nil => simp [setPeriod]
  | cons q rest ih =>
    by_cases h : q.1 = p
    · simp [setPeriod, h]
    · simp [setPeriod, h, ih]

/-- `lookupBuckets` of a freshly stored period. -/
theorem lookupBuckets_setPeriod (l : UserLedger) (p : Nat × Nat) (b : Buckets) :
    lookupBuckets (setPeriod l p b) p = b := by
  unfold lookupBuckets
  rw [find?_setPeriod]

/-- Reduced evidence of a transaction set extended by a transaction dated
in the period at hand. -/
theorem reducedEvidence_cons_here (e : Expense) (txs : List Expense) (p : Nat × Nat)
    (hp : periodOf e.date = p) :
    reducedEvidence (e :: txs) p = residualOf e + reducedEvidence txs p := by
  unfold reducedEvidence
  simp [List.filter_cons, hp]

set_option maxRecDepth 8000 in
/-- C1.  Code bug: the persistence half of the cap-enforcement claim holds
of the code, but the recording half does not.  At this input — month-to-date
food spend 800 and a bad food alert with saving potential 300, so the cap
is 500 and the remainder 0 — a new manual 100-unit food expense with the
optimization toggle active is blocked and not persisted, exactly as the
claim states; but its full amount is never recorded as a PREVENTED saving:
the handler performs no ledger write (the source only shows a toast and
returns), so the reconciliation the caller runs afterwards returns exactly
what it returned before the add, and its PREVENTED total is 0 where the
claim requires 100.  The REDUCED recording fails the same way: the blocked
difference reaches only the toast and the persisted expense stores no
pre-cap amount, so no evidence of it ever reaches the ledger. -/
theorem cap_saving_never_recorded :
    computeCategoryCap
        [⟨"1", "lunch", 800, Category.food, ⟨2024, 3, 2⟩, false, Source.MANUAL, none⟩]
        [⟨"a1", "Frequent food spending", "", "", Category.food, Severity.bad, 300⟩]
        Category.food ⟨2024, 3, 15⟩ = some 500 ∧
      handleAddExpense true
          [⟨"1", "lunch", 800, Category.food, ⟨2024, 3, 2⟩, false, Source.MANUAL, none⟩]
          [⟨"a1", "Frequent food spending", "", "", Category.food, Severity.bad, 300⟩]
          ("coffee") 100 Category.food ⟨2024, 3, 15⟩
        = [⟨"1", "lunch", 800, Category.food, ⟨2024, 3, 2⟩, false, Source.MANUAL, none⟩] ∧
      reconcileSavingsLedger ("guest")
          (handleAddExpense true
            [⟨"1", "lunch", 800, Category.food, ⟨2024, 3, 2⟩, false, Source.MANUAL, none⟩]
            [⟨"a1", "Frequent food spending", "", "", Category.food, Severity.bad, 300⟩]
            ("coffee") 100 Category.food ⟨2024, 3, 15⟩) []
        = reconcileSavingsLedger ("guest")
            [⟨"1", "lunch", 800, Category.food, ⟨2024, 3, 2⟩, false, Source.MANUAL, none⟩] [] ∧
      ((reconcileSavingsLedger ("guest")
          (handleAddExpense true
            [⟨"1", "lunch", 800, Category.food, ⟨2024, 3, 2⟩, false, Source.MANUAL, none⟩]
            [⟨"a1", "Frequent food spending", "", "", Category.food, Severity.bad, 300⟩]
            ("coffee") 100 Category.food ⟨2024, 3, 15⟩) []).1).prevented = 0 := by
  with_unfolding_all decide

end ExpenseAI
